import Mathlib

/-!
Shallow embedding of the `mobile-products-vue3` repository: a small Vue 3
single-page app that fetches products from a REST API, filters by category,
sorts by price/title, mirrors filter state into URL query parameters and
shows the top 10 results.

Embedded source files:
* `src/lib/api.ts` — `Product`, `ProductsResponse`, `fetchJson`,
  `getCategories`, `getProducts`;
* `src/lib/sort.ts` — `SortKey`, `SORT_OPTIONS`, `DEFAULT_SORT`,
  `isSortKey`, `sortProducts`;
* `src/pages/ProductsPage.vue` (script) — `asSingleString`,
  `isValidCategoryParam`, `visibleProducts`, `writeStateToRoute`,
  `readRouteToStateAndClean`, `onCategoryChange`, `onSortChange`.

Modelling decisions:
* JavaScript numbers that the code only compares (`price`, `rating`, …) are
  modelled as `Int`.
* `title.localeCompare` is a total order on strings; it is modelled by the
  standard linear order on `String`.
* `Array.prototype.sort` is stable by the ECMAScript specification, and the
  comparators in `sortProducts` are of the form `key a - key b`; a stable
  comparator sort is modelled by `List.mergeSort` with the boolean relation
  `key a ≤ key b`.
* A URL query (`route.query`) is an association list from parameter names to
  route query values (string, array of strings, or null); JavaScript object
  deletion and key assignment are modelled by `eraseKey` and `setKey`.
* The local bindings of `readRouteToStateAndClean` (`rawCategory`,
  `rawSort`, `nextSort`, `nextCategory`, `needsCategoryClean`,
  `needsSortClean`) are modelled as named functions of the same query.
-/

namespace MobileProducts

/-- `Product` from `src/lib/api.ts`: numeric fields are modelled as `Int`,
optional fields as `Option`. -/
structure Product where
  id : Int
  title : String
  description : String
  price : Int
  discountPercentage : Option Int := none
  rating : Option Int := none
  stock : Option Int := none
  brand : Option String := none
  category : String
  thumbnail : String
  images : Option (List String) := none
deriving DecidableEq, Repr

/-- `ProductsResponse` from `src/lib/api.ts`. -/
structure ProductsResponse where
  products : List Product
  total : Int
  skip : Int
  limit : Int
deriving DecidableEq, Repr

/-- `SortKey` from `src/lib/sort.ts`: the four string literals of the TS
union type become the four constructors. -/
inductive SortKey where
  | priceAsc
  | priceDesc
  | titleAsc
  | titleDesc
deriving DecidableEq, Repr

/-- The string literal each `SortKey` variant stands for in the TS source. -/
def sortKeyValue : SortKey → String
  | .priceAsc => "price-asc"
  | .priceDesc => "price-desc"
  | .titleAsc => "title-asc"
  | .titleDesc => "title-desc"

/-- `SORT_OPTIONS` from `src/lib/sort.ts`: each entry pairs a sort key
(`value`) with its UI label. -/
def SORT_OPTIONS : List (SortKey × String) :=
  [(.priceAsc, "price - low to high"),
   (.priceDesc, "price - high to low"),
   (.titleAsc, "title - A to Z"),
   (.titleDesc, "title - Z to A")]

/-- `DEFAULT_SORT` from `src/lib/sort.ts`. -/
def DEFAULT_SORT : SortKey := .titleAsc

/-- `isSortKey` from `src/lib/sort.ts`, on strings:
`SORT_OPTIONS.some((o) => o.value === v)`. -/
def isSortKeyStr (s : String) : Bool :=
  SORT_OPTIONS.any (fun o => sortKeyValue o.1 == s)

/-- The sort key named by a string, if any: the refinement of the TS idiom
`isSortKey(v) ? v : …` into the `SortKey` inductive. -/
def sortKeyOfString (s : String) : Option SortKey :=
  (SORT_OPTIONS.find? (fun o => sortKeyValue o.1 == s)).map (·.1)

/-- The boolean "a sorts no later than b" relation of each comparator in
`sortProducts` (`src/lib/sort.ts`): comparator `c` puts `a` no later than `b`
exactly when `c(a, b) ≤ 0`. -/
def sortLE : SortKey → Product → Product → Bool
  | .priceAsc, a, b => a.price ≤ b.price
  | .priceDesc, a, b => b.price ≤ a.price
  | .titleAsc, a, b => a.title ≤ b.title
  | .titleDesc, a, b => b.title ≤ a.title

/-- `sortProducts` from `src/lib/sort.ts`: copies the input and applies the
(stable) `Array.prototype.sort` with the comparator selected by the key. -/
def sortProducts (items : List Product) (sort : SortKey) : List Product :=
  items.mergeSort (sortLE sort)

/-- `visibleProducts` from `src/pages/ProductsPage.vue`:
`const items = productsQuery.data.value ?? []`, sort, then `.slice(0, 10)`.
The `Option` argument is the products query data (possibly not yet loaded). -/
def visibleProducts (data : Option (List Product)) (sort : SortKey) :
    List Product :=
  ((sortProducts (data.getD []) sort).take 10)

/-- `RouteQueryValue` from `src/pages/ProductsPage.vue`:
`string | string[] | null | undefined`. An absent key in the query object is
`undefined`, modelled by `Option.none` at the lookup; a present `null` value
is the `null` constructor. -/
inductive RQV where
  | str (s : String)
  | arr (ss : List String)
  | null
deriving DecidableEq, Repr

/-- `route.query`: a JavaScript object, i.e. an association list from
parameter names to route query values. -/
abbrev Query := List (String × RQV)

/-- `asSingleString` from `src/pages/ProductsPage.vue`. -/
def asSingleString : Option RQV → Option String
  | some (.str s) => some s
  | some (.arr ss) => ss.head?
  | _ => none

/-- JavaScript `delete q[k]`. -/
def eraseKey (k : String) (q : Query) : Query :=
  q.filter (fun p => p.1 != k)

/-- JavaScript `q[k] = v`: replaces the value in place when the key is
present, appends the entry otherwise. -/
def setKey (k : String) (v : RQV) (q : Query) : Query :=
  if (List.lookup k q).isSome then
    q.map (fun p => if p.1 == k then (k, v) else p)
  else q ++ [(k, v)]

/-- `DEFAULT_CATEGORY` from `src/pages/ProductsPage.vue`
(`null` = all products). -/
def DEFAULT_CATEGORY : Option String := none

/-- The local filter state of the page controller:
(`selectedCategory`, `selectedSort`). -/
structure FilterState where
  selectedCategory : Option String
  selectedSort : SortKey
deriving DecidableEq, Repr

/-- `isValidCategoryParam` from `src/pages/ProductsPage.vue`:
`if (!param) return true` (both `null` and `""` are falsy), otherwise
membership in the loaded category list. -/
def isValidCategoryParam (categories : List String) : Option String → Bool
  | none => true
  | some s => if s == "" then true else categories.contains s

/-- `writeStateToRoute` from `src/pages/ProductsPage.vue`: spread the current
query, delete or set `category`, delete or set `sort`, then replace the
route with the resulting query. -/
def writeStateToRoute (st : FilterState) (q : Query) : Query :=
  let q1 : Query :=
    match st.selectedCategory with
    | none => eraseKey "category" q
    | some c => setKey "category" (RQV.str c) q
  if st.selectedSort = DEFAULT_SORT then eraseKey "sort" q1
  else setKey "sort" (RQV.str (sortKeyValue st.selectedSort)) q1

/-- `rawCategory` in `readRouteToStateAndClean`:
`asSingleString(route.query.category)`. -/
def rawCategoryOf (q : Query) : Option String :=
  asSingleString (List.lookup "category" q)

/-- `rawSort` in `readRouteToStateAndClean`:
`asSingleString(route.query.sort)`. -/
def rawSortOf (q : Query) : Option String :=
  asSingleString (List.lookup "sort" q)

/-- `nextSort` in `readRouteToStateAndClean`:
`isSortKey(rawSort) ? rawSort : DEFAULT_SORT`, as parse-or-default on the
`SortKey` inductive. -/
def nextSortOf (q : Query) : SortKey :=
  match rawSortOf q with
  | some s => (sortKeyOfString s).getD DEFAULT_SORT
  | none => DEFAULT_SORT

/-- `nextCategory` in `readRouteToStateAndClean`: absent, empty or
`"all products"` parameters mean the default; otherwise the parameter is
validated once categories are known, and validation is deferred (default)
while the category list is still empty. -/
def nextCategoryOf (categories : List String) (q : Query) : Option String :=
  match rawCategoryOf q with
  | none => DEFAULT_CATEGORY
  | some c =>
    if c = "" ∨ c = "all products" then DEFAULT_CATEGORY
    else if 0 < categories.length then
      (if isValidCategoryParam categories (some c) then some c
       else DEFAULT_CATEGORY)
    else DEFAULT_CATEGORY

/-- `needsCategoryClean` in `readRouteToStateAndClean`. -/
def needsCategoryCleanOf (categories : List String) (q : Query) : Bool :=
  decide (0 < categories.length) &&
    (match rawCategoryOf q with
     | none => false
     | some c =>
       c != "" && c != "all products" &&
         !(isValidCategoryParam categories (some c)))

/-- `needsSortClean` in `readRouteToStateAndClean`. -/
def needsSortCleanOf (q : Query) : Bool :=
  match rawSortOf q with
  | none => false
  | some s => s != "" && !(isSortKeyStr s)

/-- `readRouteToStateAndClean` from `src/pages/ProductsPage.vue`. Returns
the state it assigns (the `changed` guard in the source only skips a
redundant assignment) and the route query after the optional cleaning
write. -/
def readRouteToStateAndClean (categories : List String) (q : Query) :
    FilterState × Query :=
  let st : FilterState := ⟨nextCategoryOf categories q, nextSortOf q⟩
  if needsCategoryCleanOf categories q || needsSortCleanOf q then
    (st, writeStateToRoute st q)
  else (st, q)

/-- `onCategoryChange` from `src/pages/ProductsPage.vue`. -/
def onCategoryChange (v : String) (st : FilterState) : FilterState :=
  if v == "all products" then { st with selectedCategory := DEFAULT_CATEGORY }
  else { st with selectedCategory := some v }

/-- `onSortChange` from `src/pages/ProductsPage.vue`. -/
def onSortChange (v : SortKey) (st : FilterState) : FilterState :=
  { st with selectedSort := v }

/-- `categoryOptions` from `src/pages/ProductsPage.vue`: the options the
category `<select>` offers. -/
def categoryOptions (categories : List String) : List String :=
  "all products" :: categories

/-- An HTTP response, as far as `fetchJson` inspects it: a status code and
the (already JSON-parsed) body. -/
structure Response (α : Type) where
  status : Nat
  body : α

/-- `Response.ok` per the WHATWG fetch specification (`res.ok`): status in
the inclusive range 200–299. -/
def Response.ok {α : Type} (r : Response α) : Bool :=
  200 ≤ r.status && r.status ≤ 299

/-- `BASE` from `src/lib/api.ts`. -/
def BASE : String := "https://dummyjson.com"

/-- `fetchJson` from `src/lib/api.ts`: throw on a non-ok response, return
the parsed body otherwise. -/
def fetchJson {α : Type} (r : Response α) : Except String α :=
  if !r.ok then Except.error ("Request failed (" ++ toString r.status ++ ")")
  else Except.ok r.body

/-- `getCategories` from `src/lib/api.ts`. -/
def getCategories (r : Response (List String)) : Except String (List String) :=
  fetchJson r

/-- One hexadecimal digit, uppercase, as produced by `encodeURIComponent`. -/
def hexDigit (n : Nat) : Char :=
  if n < 10 then Char.ofNat (48 + n) else Char.ofNat (55 + n)

/-- A percent-encoded byte, e.g. `%20`. -/
def percentByte (b : Nat) : String :=
  String.mk ['%', hexDigit (b / 16), hexDigit (b % 16)]

/-- UTF-8 encoding of a Unicode scalar value. -/
def utf8Bytes (n : Nat) : List Nat :=
  if n < 128 then [n]
  else if n < 2048 then [192 + n / 64, 128 + n % 64]
  else if n < 65536 then [224 + n / 4096, 128 + (n / 64) % 64, 128 + n % 64]
  else [240 + n / 262144, 128 + (n / 4096) % 64, 128 + (n / 64) % 64,
        128 + n % 64]

/-- The characters ECMAScript `encodeURIComponent` leaves unescaped:
`A–Z a–z 0–9 - _ . ! ~ * ' ( )`. -/
def isUnreservedChar (c : Char) : Bool :=
  let n := c.toNat
  (65 ≤ n && n ≤ 90) || (97 ≤ n && n ≤ 122) || (48 ≤ n && n ≤ 57) ||
    [45, 95, 46, 33, 126, 42, 39, 40, 41].contains n

/-- ECMAScript `encodeURIComponent`. -/
def encodeURIComponent (s : String) : String :=
  String.join (s.toList.map fun c =>
    if isUnreservedChar c then String.singleton c
    else String.join ((utf8Bytes c.toNat).map percentByte))

/-- The URL `getProducts` (`src/lib/api.ts`) requests: `if (!category)`
(both `null` and the empty string are falsy) selects the unscoped endpoint,
otherwise the category is percent-encoded into the path. -/
def productsRequestUrl (category : Option String) : String :=
  match category with
  | none => BASE ++ "/products?limit=100"
  | some c =>
    if c = "" then BASE ++ "/products?limit=100"
    else BASE ++ "/products/category/" ++ encodeURIComponent c ++ "?limit=100"

/-- `getProducts` from `src/lib/api.ts`, split into its two phases: the URL
it requests and, given the response to that request, the value it returns
(the `products` field of the parsed body). -/
def getProducts (category : Option String) (r : Response ProductsResponse) :
    String × Except String (List Product) :=
  (productsRequestUrl category, (fetchJson r).map (fun d => d.products))

/-- The invariant the spec states for the filter state: the sort key is one
of the four known values (an entry of `SORT_OPTIONS`) and the category is
either `null` or a member of the loaded category list. -/
def stateInvariant (categories : List String) (st : FilterState) : Prop :=
  st.selectedSort ∈ SORT_OPTIONS.map (fun o => o.1)
  ∧ (st.selectedCategory = none ∨
      ∃ c, st.selectedCategory = some c ∧ c ∈ categories)

/-! ## Theorems -/

theorem sortLE_trans (k : SortKey) (a b c : Product)
    (hab : sortLE k a b) (hbc : sortLE k b c) : sortLE k a c := by
  cases k <;> simp only [sortLE, decide_eq_true_eq] at * <;>
    first
      | exact le_trans hab hbc
      | exact le_trans hbc hab

theorem sortLE_total (k : SortKey) (a b : Product) :
    sortLE k a b || sortLE k b a := by
  cases k <;> simp only [sortLE, Bool.or_eq_true, decide_eq_true_eq]
  · exact Int.le_total a.price b.price
  · exact Int.le_total b.price a.price
  · exact le_total a.title b.title
  · exact le_total b.title a.title

theorem lookup_eraseKey_self (k : String) (q : Query) :
    List.lookup k (eraseKey k q) = none := by
  induction q with
  | nil => rfl
  | cons p t ih =>
    obtain ⟨a, b⟩ := p
    simp only [eraseKey] at *
    by_cases h : a = k
    · simp [List.filter_cons, h, ih]
    · simp [List.filter_cons, bne_iff_ne, h, List.lookup_cons,
        beq_false_of_ne (Ne.symm h), ih]

theorem lookup_eraseKey_ne (k k' : String) (h : k' ≠ k) (q : Query) :
    List.lookup k' (eraseKey k q) = List.lookup k' q := by
  induction q with
  | nil => rfl
  | cons p t ih =>
    obtain ⟨a, b⟩ := p
    simp only [eraseKey] at *
    by_cases ha : a = k
    · subst ha
      simp [List.filter_cons, List.lookup_cons, beq_false_of_ne h, ih]
    · by_cases ha' : k' = a
      · subst ha'
        simp [List.filter_cons, bne_iff_ne, ha, List.lookup_cons]
      · simp [List.filter_cons, bne_iff_ne, ha, List.lookup_cons,
          beq_false_of_ne ha', ih]

theorem lookup_map_replace (k : String) (v : RQV) (q : Query) :
    List.lookup k (q.map (fun p => if p.1 == k then (k, v) else p)) =
      if (List.lookup k q).isSome then some v else none := by
  induction q with
  | nil => rfl
  | cons p t ih =>
    obtain ⟨a, b⟩ := p
    simp only [List.map_cons]
    by_cases h : a = k
    · rw [if_pos (by simp [h])]
      subst h
      simp [List.lookup_cons]
    · rw [if_neg (by simp [h])]
      simp only [List.lookup_cons, beq_false_of_ne (Ne.symm h)]
      exact ih

theorem lookup_map_replace_ne (k k' : String) (h : k' ≠ k) (v : RQV)
    (q : Query) :
    List.lookup k' (q.map (fun p => if p.1 == k then (k, v) else p)) =
      List.lookup k' q := by
  induction q with
  | nil => rfl
  | cons p t ih =>
    obtain ⟨a, b⟩ := p
    simp only [List.map_cons]
    by_cases ha : a = k
    · rw [if_pos (by simp [ha])]
      simpa [List.lookup_cons, beq_false_of_ne h,
        beq_false_of_ne (show k' ≠ a from fun hh => h (hh.trans ha))] using ih
    · rw [if_neg (by simp [ha])]
      by_cases ha' : k' = a
      · subst ha'
        simp [List.lookup_cons]
      · simpa [List.lookup_cons, beq_false_of_ne ha'] using ih

theorem lookup_append_single (k : String) (v : RQV) (q : Query)
    (h : List.lookup k q = none) :
    List.lookup k (q ++ [(k, v)]) = some v := by
  induction q with
  | nil => simp [List.lookup_cons]
  | cons p t ih =>
    obtain ⟨a, b⟩ := p
    by_cases ha : k = a
    · simp [List.lookup_cons, ha] at h
    · simp only [List.cons_append, List.lookup_cons,
        beq_false_of_ne ha] at h ⊢
      exact ih h

theorem lookup_append_single_ne (k k' : String) (h : k' ≠ k) (v : RQV)
    (q : Query) :
    List.lookup k' (q ++ [(k, v)]) = List.lookup k' q := by
  induction q with
  | nil => simp [List.lookup_cons, beq_false_of_ne h]
  | cons p t ih =>
    obtain ⟨a, b⟩ := p
    by_cases ha' : k' = a
    · subst ha'; simp [List.lookup_cons]
    · simp [List.lookup_cons, beq_false_of_ne ha', ih]

theorem lookup_setKey_self (k : String) (v : RQV) (q : Query) :
    List.lookup k (setKey k v q) = some v := by
  unfold setKey
  by_cases h : (List.lookup k q).isSome
  · rw [if_pos h, lookup_map_replace, if_pos h]
  · rw [if_neg h]
    exact lookup_append_single k v q (Option.not_isSome_iff_eq_none.mp h)

theorem lookup_setKey_ne (k k' : String) (h : k' ≠ k) (v : RQV) (q : Query) :
    List.lookup k' (setKey k v q) = List.lookup k' q := by
  unfold setKey
  by_cases hq : (List.lookup k q).isSome
  · rw [if_pos hq]; exact lookup_map_replace_ne k k' h v q
  · rw [if_neg hq]; exact lookup_append_single_ne k k' h v q

/-- What `writeStateToRoute` leaves under the `category` key. -/
theorem lookup_category_writeStateToRoute (st : FilterState) (q : Query) :
    List.lookup "category" (writeStateToRoute st q) =
      st.selectedCategory.map RQV.str := by
  unfold writeStateToRoute
  cases hc : st.selectedCategory with
  | none =>
    by_cases hs : st.selectedSort = DEFAULT_SORT <;>
      simp [hs, hc, lookup_eraseKey_self, lookup_eraseKey_ne, lookup_setKey_ne]
  | some c =>
    by_cases hs : st.selectedSort = DEFAULT_SORT <;>
      simp [hs, hc, lookup_setKey_self, lookup_eraseKey_ne, lookup_setKey_ne]

/-- What `writeStateToRoute` leaves under the `sort` key. -/
theorem lookup_sort_writeStateToRoute (st : FilterState) (q : Query) :
    List.lookup "sort" (writeStateToRoute st q) =
      (if st.selectedSort = DEFAULT_SORT then none
       else some (RQV.str (sortKeyValue st.selectedSort))) := by
  unfold writeStateToRoute
  by_cases hs : st.selectedSort = DEFAULT_SORT <;>
    simp [hs, lookup_eraseKey_self, lookup_setKey_self]

/-- Keys other than `category` and `sort` pass through `writeStateToRoute`. -/
theorem lookup_writeStateToRoute_ne (st : FilterState) (q : Query)
    (k : String) (hc : k ≠ "category") (hs : k ≠ "sort") :
    List.lookup k (writeStateToRoute st q) = List.lookup k q := by
  unfold writeStateToRoute
  cases hcat : st.selectedCategory with
  | none =>
    by_cases h : st.selectedSort = DEFAULT_SORT <;>
      simp [h, lookup_eraseKey_ne _ _ hs, lookup_setKey_ne _ _ hs,
        lookup_eraseKey_ne _ _ hc]
  | some c =>
    by_cases h : st.selectedSort = DEFAULT_SORT <;>
      simp [h, lookup_eraseKey_ne _ _ hs, lookup_setKey_ne _ _ hs,
        lookup_setKey_ne _ _ hc]

theorem sortKeyOfString_value (k : SortKey) :
    sortKeyOfString (sortKeyValue k) = some k := by
  cases k <;> decide

theorem isSortKeyStr_value (k : SortKey) :
    isSortKeyStr (sortKeyValue k) = true := by
  cases k <;> decide

theorem sortKeyValue_ne_empty (k : SortKey) : sortKeyValue k ≠ "" := by
  cases k <;> decide

theorem sortKeyOfString_eq_none (s : String) (h : isSortKeyStr s = false) :
    sortKeyOfString s = none := by
  unfold sortKeyOfString
  cases hf : List.find? (fun o => sortKeyValue o.1 == s) SORT_OPTIONS with
  | none => rfl
  | some o =>
    exfalso
    have hp := List.find?_some hf
    have hm := List.mem_of_find?_eq_some hf
    have : SORT_OPTIONS.any (fun o => sortKeyValue o.1 == s) = true :=
      List.any_eq_true.mpr ⟨o, hm, hp⟩
    rw [isSortKeyStr] at h
    rw [this] at h
    cases h

theorem mem_sortOptions (k : SortKey) : k ∈ SORT_OPTIONS.map (fun o => o.1) := by
  cases k <;> decide

/-- `isValidCategoryParam` on a present parameter. -/
theorem isValidCategoryParam_some (categories : List String) (c : String) :
    isValidCategoryParam categories (some c) =
      (if c == "" then true else categories.contains c) := rfl

theorem isValidCategoryParam_of_mem (categories : List String) (c : String)
    (h : c ∈ categories) : isValidCategoryParam categories (some c) = true := by
  rw [isValidCategoryParam_some]
  by_cases he : c == ""
  · simp [he]
  · rw [if_neg (by simpa using he)]
    simpa using h

theorem isValidCategoryParam_false (categories : List String) (c : String)
    (hne : c ≠ "") (h : c ∉ categories) :
    isValidCategoryParam categories (some c) = false := by
  rw [isValidCategoryParam_some]
  rw [if_neg (by simp [hne])]
  simpa using h

theorem mem_of_isValidCategoryParam (categories : List String) (c : String)
    (hne : c ≠ "") (h : isValidCategoryParam categories (some c) = true) :
    c ∈ categories := by
  rw [isValidCategoryParam_some, if_neg (by simp [hne])] at h
  simpa using h

/-- The state component of `readRouteToStateAndClean` is independent of the
cleaning write. -/
theorem readRoute_fst (categories : List String) (q : Query) :
    (readRouteToStateAndClean categories q).1 =
      ⟨nextCategoryOf categories q, nextSortOf q⟩ := by
  unfold readRouteToStateAndClean
  split <;> rfl

/-- The query component of `readRouteToStateAndClean`. -/
theorem readRoute_snd (categories : List String) (q : Query) :
    (readRouteToStateAndClean categories q).2 =
      (if needsCategoryCleanOf categories q || needsSortCleanOf q then
        writeStateToRoute ⟨nextCategoryOf categories q, nextSortOf q⟩ q
      else q) := by
  unfold readRouteToStateAndClean
  split <;> simp_all

theorem nextCategoryOf_none (categories : List String) (q : Query)
    (h : rawCategoryOf q = none) : nextCategoryOf categories q = none := by
  unfold nextCategoryOf
  rw [h]
  rfl

theorem nextCategoryOf_some (categories : List String) (q : Query)
    (c : String) (h : rawCategoryOf q = some c) :
    nextCategoryOf categories q =
      (if c = "" ∨ c = "all products" then none
       else if 0 < categories.length then
         (if isValidCategoryParam categories (some c) then some c else none)
       else none) := by
  unfold nextCategoryOf
  rw [h]
  rfl

theorem nextSortOf_some (q : Query) (s : String) (h : rawSortOf q = some s) :
    nextSortOf q = (sortKeyOfString s).getD DEFAULT_SORT := by
  unfold nextSortOf
  rw [h]

theorem needsSortCleanOf_some (q : Query) (s : String)
    (h : rawSortOf q = some s) :
    needsSortCleanOf q = (s != "" && !(isSortKeyStr s)) := by
  unfold needsSortCleanOf
  rw [h]

theorem needsCategoryCleanOf_some (categories : List String) (q : Query)
    (c : String) (h : rawCategoryOf q = some c) :
    needsCategoryCleanOf categories q =
      (decide (0 < categories.length) &&
        (c != "" && c != "all products" &&
          !(isValidCategoryParam categories (some c)))) := by
  unfold needsCategoryCleanOf
  rw [h]

/-- The raw category parameter after a state write is the written category. -/
theorem rawCategoryOf_write (st : FilterState) (q : Query) :
    rawCategoryOf (writeStateToRoute st q) = st.selectedCategory := by
  rw [rawCategoryOf, lookup_category_writeStateToRoute]
  cases st.selectedCategory <;> rfl

/-- The raw sort parameter after a state write. -/
theorem rawSortOf_write (st : FilterState) (q : Query) :
    rawSortOf (writeStateToRoute st q) =
      (if st.selectedSort = DEFAULT_SORT then none
       else some (sortKeyValue st.selectedSort)) := by
  rw [rawSortOf, lookup_sort_writeStateToRoute]
  by_cases hs : st.selectedSort = DEFAULT_SORT <;> simp [hs, asSingleString]

/-- Reading back the sort after a state write recovers the written sort. -/
theorem nextSortOf_write (st : FilterState) (q : Query) :
    nextSortOf (writeStateToRoute st q) = st.selectedSort := by
  rw [nextSortOf, rawSortOf_write]
  by_cases hs : st.selectedSort = DEFAULT_SORT
  · simp [hs]
  · simp [hs, sortKeyOfString_value]

/-- C1: for every products-query result and sort key, the visible list is
exactly the first 10 elements of the sorted list (all of them when there are
at most 10), so it never has more than 10 items. -/
theorem visibleProducts_top_ten (data : Option (List Product)) (k : SortKey) :
    visibleProducts data k = (sortProducts (data.getD []) k).take 10
    ∧ (visibleProducts data k).length ≤ 10
    ∧ ((data.getD []).length ≤ 10 →
        visibleProducts data k = sortProducts (data.getD []) k) := by
  refine ⟨rfl, ?_, ?_⟩
  · simp only [visibleProducts]
    exact List.length_take_le 10 _
  · intro h
    simp only [visibleProducts]
    apply List.take_of_length_le
    simpa [sortProducts] using h

/-- C1 witness: at a concrete input the visible list is the whole sorted
list. -/
theorem visibleProducts_top_ten_witness :
    visibleProducts (some []) SortKey.priceAsc =
      sortProducts [] SortKey.priceAsc :=
  (visibleProducts_top_ten (some []) SortKey.priceAsc).2.2 (by decide)

/-- C2: `sortProducts` returns a permutation of its input that is sorted
with respect to the comparator of the selected key (nondecreasing price,
nonincreasing price, ascending title, descending title respectively), and
the sort is stable: any subsequence of the input whose elements compare
equal under the key is still a subsequence of the output. -/
theorem sortProducts_sorted_stable_perm (items : List Product) (k : SortKey) :
    (sortProducts items k).Perm items
    ∧ (sortProducts items k).Pairwise (fun a b => sortLE k a b = true)
    ∧ ∀ c : List Product,
        c.Pairwise (fun a b => sortLE k a b = true ∧ sortLE k b a = true) →
        c.Sublist items → c.Sublist (sortProducts items k) := by
  refine ⟨List.mergeSort_perm items _, ?_, ?_⟩
  · exact List.sorted_mergeSort (fun a b c => sortLE_trans k a b c)
      (fun a b => sortLE_total k a b) items
  · intro c hc hsub
    exact List.sublist_mergeSort (fun a b c => sortLE_trans k a b c)
      (fun a b => sortLE_total k a b) (hc.imp fun h => h.1) hsub

/-- C2 witness: concrete instance of the stability clause. -/
theorem sortProducts_sorted_stable_perm_witness :
    ([⟨1, "a", "d", 5, none, none, none, none, "c", "t", none⟩] :
        List Product).Sublist
      (sortProducts [⟨1, "a", "d", 5, none, none, none, none, "c", "t", none⟩]
        SortKey.priceAsc) :=
  (sortProducts_sorted_stable_perm
      [⟨1, "a", "d", 5, none, none, none, none, "c", "t", none⟩]
      SortKey.priceAsc).2.2 _ (by simp) (List.Sublist.refl _)

/-- C5: after `writeStateToRoute`, the `category` parameter is present with
value `selectedCategory` exactly when the selected category is not the
default `null`, and the `sort` parameter is present with value
`selectedSort` exactly when the selected sort is not the default
`title-asc`. -/
theorem writeStateToRoute_params_iff_nondefault (st : FilterState)
    (q : Query) :
    List.lookup "category" (writeStateToRoute st q) =
      st.selectedCategory.map RQV.str
    ∧ List.lookup "sort" (writeStateToRoute st q) =
      (if st.selectedSort = DEFAULT_SORT then none
       else some (RQV.str (sortKeyValue st.selectedSort))) :=
  ⟨lookup_category_writeStateToRoute st q, lookup_sort_writeStateToRoute st q⟩

/-- C10: `writeStateToRoute` leaves every query parameter whose key is
neither `category` nor `sort` unchanged. -/
theorem writeStateToRoute_preserves_other_params (st : FilterState)
    (q : Query) (k : String) (hc : k ≠ "category") (hs : k ≠ "sort") :
    List.lookup k (writeStateToRoute st q) = List.lookup k q :=
  lookup_writeStateToRoute_ne st q k hc hs

/-- C10 witness: a foreign `page` parameter survives a state write. -/
theorem writeStateToRoute_preserves_other_params_witness :
    List.lookup "page" (writeStateToRoute ⟨none, SortKey.titleAsc⟩
        [("page", RQV.str "2")]) =
      List.lookup "page" [("page", RQV.str "2")] :=
  writeStateToRoute_preserves_other_params ⟨none, SortKey.titleAsc⟩
    [("page", RQV.str "2")] "page" (by decide) (by decide)

/-- C7: `fetchJson` succeeds exactly on 2xx statuses, returns the parsed
body on success, and `getCategories`/`getProducts` succeed exactly when
their `fetchJson` call does. -/
theorem fetchJson_error_iff_non2xx {α : Type} (r : Response α)
    (cat : Option String) (rp : Response ProductsResponse)
    (rc : Response (List String)) :
    ((fetchJson r).isOk = true ↔ (200 ≤ r.status ∧ r.status ≤ 299))
    ∧ (200 ≤ r.status → r.status ≤ 299 → fetchJson r = Except.ok r.body)
    ∧ (getCategories rc).isOk = (fetchJson rc).isOk
    ∧ ((getProducts cat rp).2).isOk = (fetchJson rp).isOk := by
  refine ⟨?_, ?_, rfl, ?_⟩
  · unfold fetchJson Response.ok
    by_cases h1 : 200 ≤ r.status <;> by_cases h2 : r.status ≤ 299 <;>
      simp [h1, h2, Except.isOk, Except.toBool]
  · intro h1 h2
    unfold fetchJson Response.ok
    simp [h1, h2]
  · unfold getProducts
    cases h : fetchJson rp <;> simp [h, Except.isOk, Except.toBool, Except.map]

/-- C7 witness: a 200 response succeeds with its body; a 404 on the same
shape fails. -/
theorem fetchJson_error_iff_non2xx_witness :
    fetchJson (⟨200, (0 : Nat)⟩ : Response Nat) = Except.ok 0
    ∧ (fetchJson (⟨404, (0 : Nat)⟩ : Response Nat)).isOk ≠ true :=
  ⟨(fetchJson_error_iff_non2xx (⟨200, (0 : Nat)⟩ : Response Nat) none
      ⟨200, ⟨[], 0, 0, 100⟩⟩ ⟨200, []⟩).2.1 (by decide) (by decide),
   fun h =>
      absurd ((fetchJson_error_iff_non2xx (⟨404, (0 : Nat)⟩ : Response Nat)
        none ⟨200, ⟨[], 0, 0, 100⟩⟩ ⟨200, []⟩).1.mp h) (by decide)⟩

/-- C8 counterexample: the claim's URL substitutes the raw category into the
path, but the code percent-encodes it (`encodeURIComponent`): for the
category `"a b"` the requested URL is `…/a%20b?limit=100`, not
`…/a b?limit=100`. -/
theorem getProducts_url_raw_counterexample :
    (getProducts (some "a b") ⟨200, ⟨[], 0, 0, 100⟩⟩).1 ≠
      BASE ++ "/products/category/" ++ "a b" ++ "?limit=100"
    ∧ (getProducts (some "a b") ⟨200, ⟨[], 0, 0, 100⟩⟩).1 =
      BASE ++ "/products/category/" ++ "a%20b" ++ "?limit=100" := by
  constructor <;> decide

/-- C8 (amended): `getProducts` requests `{base}/products?limit=100` when
the category is null or empty, and
`{base}/products/category/{encodeURIComponent(category)}?limit=100`
otherwise; in both cases it returns the `products` field of a successful
response. -/
theorem getProducts_url_encoded (cat : Option String)
    (r : Response ProductsResponse) :
    ((cat = none ∨ cat = some "") →
      (getProducts cat r).1 = BASE ++ "/products?limit=100")
    ∧ (∀ c, cat = some c → c ≠ "" →
        (getProducts cat r).1 =
          BASE ++ "/products/category/" ++ encodeURIComponent c ++
            "?limit=100")
    ∧ (200 ≤ r.status → r.status ≤ 299 →
        (getProducts cat r).2 = Except.ok r.body.products) := by
  refine ⟨?_, ?_, ?_⟩
  · rintro (rfl | rfl) <;> simp [getProducts, productsRequestUrl]
  · rintro c rfl hc
    simp [getProducts, productsRequestUrl, hc]
  · intro h1 h2
    simp [getProducts, fetchJson, Response.ok, h1, h2, Except.map]

/-- C8 witness: the scoped URL and the success value at a concrete call. -/
theorem getProducts_url_encoded_witness :
    (getProducts (some "laptops") ⟨200, ⟨[], 0, 0, 100⟩⟩).1 =
      BASE ++ "/products/category/" ++ encodeURIComponent "laptops" ++
        "?limit=100"
    ∧ (getProducts (some "laptops") ⟨200, ⟨[], 0, 0, 100⟩⟩).2 =
      Except.ok [] :=
  ⟨(getProducts_url_encoded (some "laptops") ⟨200, ⟨[], 0, 0, 100⟩⟩).2.1
      "laptops" rfl (by decide),
   (getProducts_url_encoded (some "laptops") ⟨200, ⟨[], 0, 0, 100⟩⟩).2.2
      (by decide) (by decide)⟩

/-- C3 counterexample: the round trip fails for a category that is a member
of the loaded list but collides with the sentinels: writing
`"all products"` (or `""`) as the selected category and reading it back
yields the default `none`, not the written category. -/
theorem writeRead_roundTrip_counterexample :
    ("all products" ∈ ["all products"])
    ∧ (readRouteToStateAndClean ["all products"]
        (writeStateToRoute ⟨some "all products", SortKey.titleAsc⟩
          [])).1.selectedCategory ≠ some "all products"
    ∧ ("" ∈ [""])
    ∧ (readRouteToStateAndClean [""]
        (writeStateToRoute ⟨some "", SortKey.titleAsc⟩
          [])).1.selectedCategory ≠ some "" := by
  refine ⟨by decide, by decide, by decide, by decide⟩

/-- C3 (amended): the round trip holds for every valid filter state whose
category, when present, is a member of the loaded category list and is
neither the empty string nor the sentinel `"all products"`. -/
theorem writeRead_roundTrip (categories : List String) (st : FilterState)
    (q : Query)
    (hcat : st.selectedCategory = none ∨
      ∃ c, st.selectedCategory = some c ∧ c ∈ categories ∧ c ≠ "" ∧
        c ≠ "all products") :
    (readRouteToStateAndClean categories (writeStateToRoute st q)).1 = st := by
  have hnc : nextCategoryOf categories (writeStateToRoute st q) =
      st.selectedCategory := by
    rcases hcat with hnone | ⟨c, hc, hmem, hne, hnap⟩
    · rw [nextCategoryOf_none categories _
        (by rw [rawCategoryOf_write]; exact hnone), hnone]
    · rw [nextCategoryOf_some categories _ c
        (by rw [rawCategoryOf_write]; exact hc)]
      rw [if_neg (by rintro (h | h); exacts [hne h, hnap h])]
      rw [if_pos (List.length_pos.mpr (List.ne_nil_of_mem hmem))]
      rw [if_pos (isValidCategoryParam_of_mem categories c hmem)]
      rw [hc]
  rw [readRoute_fst, nextSortOf_write, hnc]

/-- C3 witness: a valid category and non-default sort survive the
write/read round trip. -/
theorem writeRead_roundTrip_witness :
    (readRouteToStateAndClean ["smartphones"]
        (writeStateToRoute ⟨some "smartphones", SortKey.priceDesc⟩
          [("x", RQV.str "y")])).1 =
      ⟨some "smartphones", SortKey.priceDesc⟩ :=
  writeRead_roundTrip ["smartphones"] ⟨some "smartphones", SortKey.priceDesc⟩
    [("x", RQV.str "y")]
    (Or.inr ⟨"smartphones", rfl, by decide, by decide, by decide⟩)

/-- C4 counterexample: an empty `sort` value is not one of the four sort
keys, yet it is left in the URL; a `category` value of `"all products"`
that is not in the loaded list is left in the URL; with an empty loaded
list an invalid `category` is also left in the URL. (The state is still
defaulted in each case.) -/
theorem readRoute_strip_counterexample :
    isSortKeyStr "" = false
    ∧ (readRouteToStateAndClean ["smartphones"] [("sort", RQV.str "")]).2 =
      [("sort", RQV.str "")]
    ∧ (["smartphones"].contains "all products") = false
    ∧ (readRouteToStateAndClean ["smartphones"]
        [("category", RQV.str "all products")]).2 =
      [("category", RQV.str "all products")]
    ∧ (readRouteToStateAndClean [] [("category", RQV.str "shoes")]).2 =
      [("category", RQV.str "shoes")] := by
  refine ⟨by decide, by decide, by decide, by decide, by decide⟩

/-- C4 (amended): reading the route never fails and normalizes: a `sort`
parameter that reads as a nonempty string that is not one of the four sort
keys yields the default sort and is removed from the query; a `category`
parameter that reads as a nonempty string other than `"all products"` and
is not a member of the (nonempty) loaded category list yields the default
`null` category and is removed from the query. -/
theorem readRoute_defaults_and_strips (categories : List String) (q : Query) :
    (∀ s, rawSortOf q = some s → s ≠ "" → isSortKeyStr s = false →
      (readRouteToStateAndClean categories q).1.selectedSort = DEFAULT_SORT
      ∧ List.lookup "sort" (readRouteToStateAndClean categories q).2 = none)
    ∧ (∀ c, rawCategoryOf q = some c → c ≠ "" → c ≠ "all products" →
      0 < categories.length → c ∉ categories →
      (readRouteToStateAndClean categories q).1.selectedCategory = none
      ∧ List.lookup "category" (readRouteToStateAndClean categories q).2 =
        none) := by
  constructor
  · intro s hs hne hnotkey
    have h1 : nextSortOf q = DEFAULT_SORT := by
      rw [nextSortOf_some q s hs, sortKeyOfString_eq_none s hnotkey]
      rfl
    have h2 : needsSortCleanOf q = true := by
      rw [needsSortCleanOf_some q s hs]
      simp [hne, hnotkey]
    refine ⟨?_, ?_⟩
    · rw [readRoute_fst]
      exact h1
    · rw [readRoute_snd, h2, Bool.or_true, if_pos rfl,
        lookup_sort_writeStateToRoute]
      simp [h1]
  · intro c hc hne hnap hlen hnmem
    have hval : isValidCategoryParam categories (some c) = false :=
      isValidCategoryParam_false categories c hne hnmem
    have h1 : nextCategoryOf categories q = none := by
      rw [nextCategoryOf_some categories q c hc]
      rw [if_neg (by rintro (h | h); exacts [hne h, hnap h])]
      rw [if_pos hlen]
      simp [hval]
    have h2 : needsCategoryCleanOf categories q = true := by
      rw [needsCategoryCleanOf_some categories q c hc]
      simp [hne, hnap, hval, hlen]
    refine ⟨?_, ?_⟩
    · rw [readRoute_fst]
      exact h1
    · rw [readRoute_snd, h2, Bool.true_or, if_pos rfl,
        lookup_category_writeStateToRoute]
      simp [h1]

/-- C4 witness: an unknown sort and an unknown category are both defaulted
and stripped. -/
theorem readRoute_defaults_and_strips_witness :
    ((readRouteToStateAndClean ["smartphones"]
        [("sort", RQV.str "bogus"),
         ("category", RQV.str "shoes")]).1.selectedSort = DEFAULT_SORT
      ∧ List.lookup "sort" (readRouteToStateAndClean ["smartphones"]
          [("sort", RQV.str "bogus"),
           ("category", RQV.str "shoes")]).2 = none)
    ∧ ((readRouteToStateAndClean ["smartphones"]
        [("sort", RQV.str "bogus"),
         ("category", RQV.str "shoes")]).1.selectedCategory = none
      ∧ List.lookup "category" (readRouteToStateAndClean ["smartphones"]
          [("sort", RQV.str "bogus"),
           ("category", RQV.str "shoes")]).2 = none) :=
  ⟨(readRoute_defaults_and_strips ["smartphones"]
      [("sort", RQV.str "bogus"), ("category", RQV.str "shoes")]).1
      "bogus" (by decide) (by decide) (by decide),
   (readRoute_defaults_and_strips ["smartphones"]
      [("sort", RQV.str "bogus"), ("category", RQV.str "shoes")]).2
      "shoes" (by decide) (by decide) (by decide) (by decide) (by decide)⟩

/-- C6: every state-updating operation establishes or preserves the filter
state invariant: reading the route always establishes it; the category
change handler preserves it for any value the category select can deliver;
the sort change handler preserves it. -/
theorem filterState_invariant_preserved (categories : List String)
    (q : Query) (st : FilterState) (v : String) (k : SortKey) :
    stateInvariant categories (readRouteToStateAndClean categories q).1
    ∧ (v ∈ categoryOptions categories → stateInvariant categories st →
        stateInvariant categories (onCategoryChange v st))
    ∧ (stateInvariant categories st →
        stateInvariant categories (onSortChange k st)) := by
  refine ⟨?_, ?_, ?_⟩
  · rw [readRoute_fst]
    refine ⟨mem_sortOptions _, ?_⟩
    have hsel : (⟨nextCategoryOf categories q, nextSortOf q⟩ :
        FilterState).selectedCategory = nextCategoryOf categories q := rfl
    rw [hsel]
    cases hraw : rawCategoryOf q with
    | none => exact Or.inl (nextCategoryOf_none categories q hraw)
    | some c =>
      rw [nextCategoryOf_some categories q c hraw]
      by_cases h1 : c = "" ∨ c = "all products"
      · exact Or.inl (by rw [if_pos h1])
      · rw [if_neg h1]
        by_cases h2 : 0 < categories.length
        · rw [if_pos h2]
          by_cases h3 : isValidCategoryParam categories (some c) = true
          · rw [if_pos h3]
            exact Or.inr ⟨c, rfl,
              mem_of_isValidCategoryParam categories c
                (fun hh => h1 (Or.inl hh)) h3⟩
          · rw [if_neg h3]
            exact Or.inl rfl
        · rw [if_neg h2]
          exact Or.inl rfl
  · intro hv hst
    unfold onCategoryChange
    by_cases hva : v = "all products"
    · rw [if_pos (by simp [hva])]
      exact ⟨hst.1, Or.inl rfl⟩
    · rw [if_neg (by simp [hva])]
      refine ⟨hst.1, Or.inr ⟨v, rfl, ?_⟩⟩
      rcases List.mem_cons.mp hv with h | h
      · exact absurd h hva
      · exact h
  · intro hst
    exact ⟨mem_sortOptions k, hst.2⟩

/-- C6 witness: the invariant holds after a read, a category change and a
sort change at concrete inputs. -/
theorem filterState_invariant_preserved_witness :
    stateInvariant ["smartphones"]
      (readRouteToStateAndClean ["smartphones"] []).1
    ∧ stateInvariant ["smartphones"]
      (onCategoryChange "smartphones" ⟨none, SortKey.titleAsc⟩)
    ∧ stateInvariant ["smartphones"]
      (onSortChange SortKey.priceAsc ⟨none, SortKey.titleAsc⟩) :=
  have h := filterState_invariant_preserved ["smartphones"] []
    ⟨none, SortKey.titleAsc⟩ "smartphones" SortKey.priceAsc
  ⟨h.1, h.2.1 (by decide) ⟨by decide, Or.inl rfl⟩,
    h.2.2 ⟨by decide, Or.inl rfl⟩⟩

end MobileProducts
